import Mathlib

/-
Formal model of the Python program `strava_activity.py`.

Conventions used throughout this development:
* Python strings are modelled as `List Char`; concrete `String` literals are
  converted with `.data` where concrete values are needed.
* `time.time()` and the numeric fields of the token file are modelled as
  integers (`Int`); only their ordering and addition matter to the program.
* JSON values (results of `json.load` and `response.json()`) are modelled by
  the mutual inductives `Json` / `JsonList` / `JsonFields` below; JSON
  booleans and floats are not exercised by any behaviour studied here and
  are omitted from the value space.
* A Python exception escaping a function is modelled with `Except PyErr`.
-/

/-- Python whitespace test used by `str.split()` and `str.strip()`:
the ASCII whitespace characters (space, tab, newline, carriage return,
vertical tab, form feed). -/
def isPySpace (c : Char) : Bool :=
  c == ' ' || c == '\t' || c == '\n' || c == '\r' ||
    c == Char.ofNat 11 || c == Char.ofNat 12

/-- Python `s.strip()` (line 232 of the source): remove leading and trailing
whitespace. -/
def pyStrip (l : List Char) : List Char :=
  ((l.dropWhile isPySpace).reverse.dropWhile isPySpace).reverse

/-- Python `s.split(sep)[0]` for a non-empty `sep` (line 232): the part of the
string before the first occurrence of `sep`, or all of it when `sep` does not
occur. -/
def takeBeforeFirst (sep : List Char) : List Char → List Char
  | [] => []
  | c :: cs => if sep.isPrefixOf (c :: cs) then [] else c :: takeBeforeFirst sep cs

/-- Python substring test `sep in s` (line 231). -/
def containsSub (sep : List Char) : List Char → Bool
  | [] => sep.isEmpty
  | c :: cs => sep.isPrefixOf (c :: cs) || containsSub sep cs

/-- Number of occurrences of a non-empty pattern in a string: the number of
positions at which `pat` starts. -/
def countOccur (pat : List Char) : List Char → Nat
  | [] => 0
  | c :: cs => (if pat.isPrefixOf (c :: cs) then 1 else 0) + countOccur pat cs

/-- Decimal digit characters, for the model of Python `str` of a
non-negative integer. Only arguments below 10 are ever used. -/
def digitChar : Nat → Char
  | 0 => '0'
  | 1 => '1'
  | 2 => '2'
  | 3 => '3'
  | 4 => '4'
  | 5 => '5'
  | 6 => '6'
  | 7 => '7'
  | 8 => '8'
  | _ => '9'

/-- Fuel-driven decimal rendering of a natural number (most significant digit
first). The fuel only bounds the recursion depth; `natDigits` below always
supplies enough. -/
def natDigitsAux : Nat → Nat → List Char
  | _, 0 => []
  | n, fuel + 1 =>
    if n < 10 then [digitChar n]
    else natDigitsAux (n / 10) fuel ++ [digitChar (n % 10)]

/-- Python `str(n)` for a non-negative integer (the f-string at line 234):
its decimal digits. -/
def natDigits (n : Nat) : List Char := natDigitsAux n (n + 1)

/-- The literal marker `"yap score:"` from lines 231 and 232. -/
def yapMarker : List Char := ['y', 'a', 'p', ' ', 's', 'c', 'o', 'r', 'e', ':']

/-- The marker followed by one space, as in the f-string `"yap score: {n}"`. -/
def yapSpace : List Char := yapMarker ++ [' ']

/-- The suffix appended by the f-string at line 234: `"\n\nyap score: "`
followed by the decimal word count. -/
def yapTail (n : Nat) : List Char := '\n' :: '\n' :: (yapSpace ++ natDigits n)

/-- Lines 231 and 232 of the source: the description with any prior yap-score
block removed. When the marker occurs, the part before its first occurrence is
kept and stripped (on both ends, Python `strip()`); otherwise the description
is left untouched. -/
def stripPrior (d : List Char) : List Char :=
  if containsSub yapMarker d then pyStrip (takeBeforeFirst yapMarker d) else d

/-- Helper for Python `text.split()` (whitespace split, empty tokens dropped):
`acc` holds the reversed current token. -/
def pySplitWsAux : List Char → List Char → List (List Char)
  | acc, [] => if acc.isEmpty then [] else [acc.reverse]
  | acc, c :: cs =>
    if isPySpace c then
      if acc.isEmpty then pySplitWsAux [] cs else acc.reverse :: pySplitWsAux [] cs
    else pySplitWsAux (c :: acc) cs

/-- Python `text.split()`: split on runs of whitespace, dropping empty
tokens. -/
def pySplitWs (t : List Char) : List (List Char) := pySplitWsAux [] t

/-- The source function `count_words` (line 197): `len(text.split())`. -/
def count_words (t : List Char) : Nat := (pySplitWs t).length

/-- Lines 226 to 234 of the source, as a function of the current description
and the activity title: strip any prior yap-score block, then append
`"\n\nyap score: {count_words title}"`. -/
def updateDescription (d t : List Char) : List Char :=
  stripPrior d ++ yapTail (count_words t)

/-- Removal of trailing whitespace only, used by `specUpdateDescription`. -/
def trimTrailing (l : List Char) : List Char :=
  (l.reverse.dropWhile isPySpace).reverse

/-- Modelled from the words of claim C5 (not from the source), for comparison
with `updateDescription`: split the old description on the first occurrence of
the marker, keep only the prefix, trim trailing whitespace from it, and append
the new yap-score block. -/
def specUpdateDescription (d t : List Char) : List Char :=
  trimTrailing (takeBeforeFirst yapMarker d) ++ yapTail (count_words t)

/-- State of a maximal-run scan: the `Bool` says whether the previous
character was part of a non-whitespace run. Counts the starts of maximal
non-whitespace runs. -/
def countRunsAux : Bool → List Char → Nat
  | _, [] => 0
  | inRun, c :: cs =>
    if isPySpace c then countRunsAux false cs
    else (if inRun then 0 else 1) + countRunsAux true cs

/-- The number of maximal runs of non-whitespace characters in a string
(the quantity named by claim C7). -/
def countRuns (t : List Char) : Nat := countRunsAux false t

/-- Python exceptions that can escape the modelled functions. -/
inductive PyErr where
  | keyError
  | typeError
  | httpError
  | fileNotFound
  | attributeError
  | indexError
deriving DecidableEq

mutual
/-- JSON values as produced by `json.load` and `response.json()`.
Booleans and floats are not exercised by the behaviour under study. -/
inductive Json where
  | null : Json
  | num (n : Int) : Json
  | str (s : String) : Json
  | arr (xs : JsonList) : Json
  | obj (fields : JsonFields) : Json

/-- A JSON array. -/
inductive JsonList where
  | nil : JsonList
  | cons (v : Json) (rest : JsonList) : JsonList

/-- A JSON object: an association list of string keys and values. A parsed
Python dict has unique keys, so lookup of the first match is faithful. -/
inductive JsonFields where
  | nil : JsonFields
  | cons (k : String) (v : Json) (rest : JsonFields) : JsonFields
end

/-- Key lookup in a JSON object (Python `d[k]` / `k in d` / `d.get(k)`). -/
def jfLookup : JsonFields → String → Option Json
  | .nil, _ => none
  | .cons k v rest, key => if k = key then some v else jfLookup rest key

/-- Key assignment in a JSON object (Python `d[k] = v`): replace the value of
an existing key, or append a new binding. -/
def jfSet : JsonFields → String → Json → JsonFields
  | .nil, key, v => .cons key v .nil
  | .cons k w rest, key, v =>
    if k = key then .cons key v rest else .cons k w (jfSet rest key v)

/-- Python `key in xs` for a string `key` and list `xs`: equality with a
non-string element is `False`. -/
def jlContainsStr : JsonList → String → Bool
  | .nil, _ => false
  | .cons (.str s) rest, key => s = key || jlContainsStr rest key
  | .cons _ rest, key => jlContainsStr rest key

/-- State of the persisted file `strava_tokens.json`: absent, present but not
parseable as JSON, or present with a parsed JSON value. -/
inductive FileState where
  | missing
  | invalidJson
  | json (v : Json)

/-- Whether the persisted token file exists on disk. -/
def fileExists : FileState → Bool
  | .missing => false
  | _ => true

/-- Python subscription `v[key]` for a string key: lookup on a dict
(raising `KeyError` when absent), `TypeError` on any other value. -/
def jsonIndex (v : Json) (key : String) : Except PyErr Json :=
  match v with
  | .obj fields =>
    match jfLookup fields key with
    | some w => .ok w
    | none => .error .keyError
  | _ => .error .typeError

/-- Python `now < v` for a number `now`: ordinary comparison against a JSON
number, `TypeError` against any other value. -/
def pyLtNum (now : Int) (v : Json) : Except PyErr Bool :=
  match v with
  | .num e => .ok (decide (now < e))
  | _ => .error .typeError

/-- Python `now + v` for a number `now`: addition with a JSON number,
`TypeError` with any other value. -/
def pyAddNum (now : Int) (v : Json) : Except PyErr Int :=
  match v with
  | .num e => .ok (now + e)
  | _ => .error .typeError

/-- Python `v[key] = w`: assignment into a dict, `TypeError` on any other
value. -/
def jsonSetKey (v : Json) (key : String) (w : Json) : Except PyErr Json :=
  match v with
  | .obj fields => .ok (.obj (jfSet fields key w))
  | _ => .error .typeError

/-- The source function `load_tokens` (lines 33 to 43), at current time `now`
and file state `fs`. A missing file (`FileNotFoundError`) and unparseable
content (`json.JSONDecodeError`) are caught and give `none`; any error raised
by `tokens["expires_at"]` or by the comparison with `time.time()` is not
caught and escapes. The record is returned only when `now` is strictly below
`expires_at`. -/
def load_tokens (now : Int) (fs : FileState) : Except PyErr (Option Json) :=
  match fs with
  | .missing => .ok none
  | .invalidJson => .ok none
  | .json tokens =>
    match jsonIndex tokens "expires_at" with
    | .error e => .error e
    | .ok ev =>
      match pyLtNum now ev with
      | .error e => .error e
      | .ok b => if b then .ok (some tokens) else .ok none

/-- The source function `save_tokens` (lines 45 to 48): overwrite the
persisted file with the given record. -/
def save_tokens (tokens : Json) : FileState := .json tokens

/-- The token-endpoint response to the POST of line 106: its HTTP status and
parsed JSON body. -/
structure TokenResp where
  status : Nat
  body : Json

/-- The interactive part of `get_access_token` (lines 67 to 114): browser
authorization, then the token-endpoint POST. `response.raise_for_status()`
raises exactly for statuses 400 to 599, leaving the persisted file `fs`
untouched; on a non-raising response the code computes
`expires_at = time.time() + expires_in`, stores it in the record, persists
the record, and returns its `access_token`. The `Bool` component records
that the flow (a network call) was entered. -/
def oauthFlow (now : Int) (fs : FileState) (resp : TokenResp) :
    Except PyErr Json × FileState × Bool :=
  if 400 ≤ resp.status ∧ resp.status < 600 then (.error .httpError, fs, true)
  else
    match jsonIndex resp.body "expires_in" with
    | .error e => (.error e, fs, true)
    | .ok ei =>
      match pyAddNum now ei with
      | .error e => (.error e, fs, true)
      | .ok expAt =>
        match jsonSetKey resp.body "expires_at" (.num expAt) with
        | .error e => (.error e, fs, true)
        | .ok tokens => (jsonIndex tokens "access_token", save_tokens tokens, true)

/-- The source function `get_access_token` (lines 50 to 114). Returns the
result value (the access token, or the escaping exception), the final state
of the persisted token file, and whether the interactive OAuth flow was
entered. On a cache hit the cached record's `access_token` is returned
directly; otherwise the call defers to `oauthFlow`. -/
def get_access_token (now : Int) (fs : FileState) (resp : TokenResp) :
    Except PyErr Json × FileState × Bool :=
  match load_tokens now fs with
  | .error e => (.error e, fs, false)
  | .ok (some tokens) => (jsonIndex tokens "access_token", fs, false)
  | .ok none => oauthFlow now fs resp

/-- The activities-endpoint response to the GET of line 143: its HTTP status
and parsed JSON body. -/
structure ActResp where
  status : Nat
  body : Json

/-- Python truthiness of a JSON value (`if not activities:`, line 156). -/
def pyFalsy : Json → Bool
  | .null => true
  | .num n => n == 0
  | .str s => s.isEmpty
  | .arr .nil => true
  | .arr _ => false
  | .obj .nil => true
  | .obj _ => false

/-- Python `activities[0]` (line 161) on a truthy value: first element of a
list, first character of a string, `KeyError` on a dict without integer keys,
`TypeError` on a number or `None`. -/
def pyIndex0 : Json → Except PyErr Json
  | .arr (.cons a _) => .ok a
  | .arr .nil => .error .indexError
  | .str s =>
    match s.data with
    | c :: _ => .ok (.str (String.mk [c]))
    | [] => .error .indexError
  | .obj _ => .error .keyError
  | .num _ => .error .typeError
  | .null => .error .typeError

/-- The source function `get_recent_activity` (lines 116 to 165). The request
argument is `none` when `requests.get` itself raises a `RequestException`
(caught at line 163, returning `None`). On status 401 the code calls
`os.remove` on the token file before returning `None`; when the file is
absent this raises `FileNotFoundError`, which is not a `RequestException`
and escapes. Statuses 400 to 599 other than 401 make `raise_for_status`
raise an `HTTPError`, which is a `RequestException` and is caught, giving
`None`. A falsy (empty) body gives `None`; otherwise the first element is
returned. The returned pair is the result and the final token-file state. -/
def get_recent_activity (fs : FileState) (req : Option ActResp) :
    Except PyErr (Option Json) × FileState :=
  match req with
  | none => (.ok none, fs)
  | some resp =>
    if resp.status = 401 then
      match fs with
      | .missing => (.error .fileNotFound, fs)
      | _ => (.ok none, .missing)
    else if 400 ≤ resp.status ∧ resp.status < 600 then (.ok none, fs)
    else if pyFalsy resp.body then (.ok none, fs)
    else
      match pyIndex0 resp.body with
      | .ok a => (.ok (some a), fs)
      | .error e => (.error e, fs)

/-- Decimal rendering of a Python integer, possibly negative. -/
def intDigits (n : Int) : List Char :=
  if n < 0 then '-' :: natDigits n.natAbs else natDigits n.toNat

/-- Python `repr` of a string: the text between single quotes (escaping of
characters inside the string is not modelled). -/
def strRepr (s : String) : List Char :=
  Char.ofNat 39 :: s.data ++ [Char.ofNat 39]

mutual
/-- Python `str` of a JSON value as interpolated by the f-string at line 234
(for containers this is `repr`). -/
def pyRepr : Json → List Char
  | .null => ['N', 'o', 'n', 'e']
  | .num n => intDigits n
  | .str s => strRepr s
  | .arr xs => '[' :: pyReprList xs ++ [']']
  | .obj fields => Char.ofNat 123 :: pyReprFields fields ++ [Char.ofNat 125]

/-- Comma-separated `repr` of the elements of a JSON array. -/
def pyReprList : JsonList → List Char
  | .nil => []
  | .cons v .nil => pyRepr v
  | .cons v rest => pyRepr v ++ [',', ' '] ++ pyReprList rest

/-- Comma-separated `repr` of the bindings of a JSON object. -/
def pyReprFields : JsonFields → List Char
  | .nil => []
  | .cons k v .nil => strRepr k ++ [':', ' '] ++ pyRepr v
  | .cons k v rest =>
    strRepr k ++ [':', ' '] ++ pyRepr v ++ [',', ' '] ++ pyReprFields rest
end

/-- The body of the `if activity:` branch of `__main__` (lines 224 to 234), as
a function of the activity object: read `description` and `name` with
`dict.get` defaults `""`, compute the word count of the title (raising
`AttributeError` when the title is not a string, since `count_words` calls
`.split()` on it), test `"yap score:" in description` (membership on
lists and dicts, `TypeError` on numbers and `None`), strip any prior
yap-score block, and build the new description. -/
def mainUpdate (activity : JsonFields) : Except PyErr (List Char) :=
  let desc :=
    match jfLookup activity "description" with
    | some v => v
    | none => .str ""
  let nm :=
    match jfLookup activity "name" with
    | some v => v
    | none => .str ""
  match nm with
  | .str t =>
    match desc with
    | .str d => .ok (updateDescription d.data t.data)
    | .null => .error .typeError
    | .num _ => .error .typeError
    | .arr xs =>
      if jlContainsStr xs "yap score:" then .error .attributeError
      else .ok (pyRepr (.arr xs) ++ yapTail (count_words t.data))
    | .obj fields =>
      if (jfLookup fields "yap score:").isSome then .error .attributeError
      else .ok (pyRepr (.obj fields) ++ yapTail (count_words t.data))
  | _ => .error .attributeError

/-- A demonstration cached token record: expiry 100, token `"tok"`. -/
def demoTokens : Json :=
  .obj (.cons "expires_at" (.num 100) (.cons "access_token" (.str "tok") .nil))

/-- A demonstration token-endpoint response body. -/
def demoTokenBody : Json :=
  .obj (.cons "access_token" (.str "newtok") (.cons "refresh_token" (.str "r")
    (.cons "expires_in" (.num 3600) .nil)))

/-- The record persisted after exchanging `demoTokenBody` at time 0:
`expires_at = 0 + 3600` has been appended. -/
def demoSavedBody : Json :=
  .obj (.cons "access_token" (.str "newtok") (.cons "refresh_token" (.str "r")
    (.cons "expires_in" (.num 3600) (.cons "expires_at" (.num 3600) .nil))))

/-- An activity object with a title and no description key. -/
def actNoDesc : JsonFields := .cons "name" (.str "Run") .nil

/-- An activity object whose `name` key is present but null. -/
def actNullName : JsonFields :=
  .cons "name" .null (.cons "description" (.str "x") .nil)

/-- C1: if a persisted record exists, parses as JSON, and the current time is
strictly before its `expires_at`, `get_access_token` returns its
`access_token` with the file untouched and no network call; a record whose
`expires_at` is not strictly in the future is treated like a missing file:
in both cases the call enters the interactive authorization flow. -/
theorem c1_token_cache_validity (now e : Int) (v a : Json) (resp : TokenResp)
    (hexp : jsonIndex v "expires_at" = .ok (.num e))
    (hacc : jsonIndex v "access_token" = .ok a) :
    (now < e → get_access_token now (.json v) resp = (.ok a, .json v, false)) ∧
    (e ≤ now → get_access_token now (.json v) resp = oauthFlow now (.json v) resp
      ∧ get_access_token now .missing resp = oauthFlow now .missing resp) := by
  constructor
  · intro hlt
    have hload : load_tokens now (.json v) = .ok (some v) := by
      simp [load_tokens, hexp, pyLtNum, hlt]
    simp [get_access_token, hload, hacc]
  · intro hle
    have hnlt : ¬ now < e := Int.not_lt.mpr hle
    have hload : load_tokens now (.json v) = .ok none := by
      simp [load_tokens, hexp, pyLtNum, hnlt]
    exact ⟨by simp [get_access_token, hload], rfl⟩

/-- Witness for C1 at a concrete cached record and time 0 < 100. -/
theorem c1_witness :
    get_access_token 0 (.json demoTokens) ⟨200, .null⟩
      = (.ok (.str "tok"), .json demoTokens, false) :=
  (c1_token_cache_validity 0 100 demoTokens (.str "tok") ⟨200, .null⟩
    rfl rfl).1 (by decide)

/-- C2 counterexample: a token file holding the valid JSON object `{}` is
"malformed" content, yet `load_tokens` raises `KeyError` (line 39 indexes
`tokens["expires_at"]` outside the `except` clause's caught types) instead of
returning `None`. -/
theorem c2_load_tokens_counterexample :
    load_tokens 0 (.json (.obj .nil)) = .error .keyError ∧
    load_tokens 0 (.json (.obj .nil)) ≠ .ok none :=
  ⟨rfl, fun h => Except.noConfusion h⟩

/-- C2 amended: a missing file or content that fails to parse as JSON gives
`None` without raising, but parsed JSON content on which line 39 fails
propagates that error to the caller: an error from the `expires_at` lookup
itself (`KeyError` on a dict lacking the key, `TypeError` on a non-dict),
and equally an error from comparing `time.time()` with a non-numeric
`expires_at` value. -/
theorem c2_load_tokens_amended (now : Int) :
    load_tokens now .missing = .ok none ∧
    load_tokens now .invalidJson = .ok none ∧
    (∀ v e, jsonIndex v "expires_at" = .error e →
      load_tokens now (.json v) = .error e) ∧
    (∀ v ev e, jsonIndex v "expires_at" = .ok ev → pyLtNum now ev = .error e →
      load_tokens now (.json v) = .error e) := by
  refine ⟨rfl, rfl, ?_, ?_⟩
  · intro v e h
    simp [load_tokens, h]
  · intro v ev e hv he
    simp [load_tokens, hv, he]

/-- Witness for C2 amended at time 0: a missing file, an unparseable file,
the empty JSON object (uncaught `KeyError`), and a record whose `expires_at`
is a string (uncaught `TypeError` from the comparison). -/
theorem c2_witness :
    load_tokens 0 .missing = .ok none ∧
    load_tokens 0 .invalidJson = .ok none ∧
    load_tokens 0 (.json (.obj .nil)) = .error .keyError ∧
    load_tokens 0 (.json (.obj (.cons "expires_at" (.str "soon") .nil)))
      = .error .typeError :=
  ⟨(c2_load_tokens_amended 0).1,
   (c2_load_tokens_amended 0).2.1,
   (c2_load_tokens_amended 0).2.2.1 (.obj .nil) .keyError rfl,
   (c2_load_tokens_amended 0).2.2.2 (.obj (.cons "expires_at" (.str "soon") .nil))
     (.str "soon") .typeError rfl rfl⟩

/-- C3 counterexample: a 300 (non-2xx) response from the token endpoint does
not make `raise_for_status` raise; with a token-shaped body the exchange
persists a record and returns its token, so "non-2xx raises and persists
nothing" is false as stated. -/
theorem c3_exchange_counterexample :
    get_access_token 0 .missing ⟨300, demoTokenBody⟩
      = (.ok (.str "newtok"), .json demoSavedBody, true) := rfl

/-- C3 amended: on a cache miss, a token-endpoint status in 400..599 raises an
HTTP error that propagates, and the persisted state is unchanged (no record is
written). -/
theorem c3_exchange_amended (now : Int) (fs : FileState) (resp : TokenResp)
    (hmiss : load_tokens now fs = .ok none)
    (h4 : 400 ≤ resp.status) (h6 : resp.status < 600) :
    get_access_token now fs resp = (.error .httpError, fs, true) := by
  simp [get_access_token, hmiss, oauthFlow, h4, h6]

/-- Witness for C3 amended at a concrete 500 response. -/
theorem c3_witness :
    get_access_token 0 .missing ⟨500, .null⟩ = (.error .httpError, .missing, true) :=
  c3_exchange_amended 0 .missing ⟨500, .null⟩ rfl (by decide) (by decide)

/-- C4 counterexample: with no persisted token file, a 401 from the activities
endpoint makes the unguarded `os.remove` raise `FileNotFoundError` instead of
returning `None`. -/
theorem c4_unauthorized_counterexample :
    get_recent_activity .missing (some ⟨401, .null⟩)
      = (.error .fileNotFound, .missing) := rfl

/-- C4 amended: provided the persisted token file exists, a 401 response
deletes it and the call returns `None` without raising. -/
theorem c4_unauthorized_amended (fs : FileState) (resp : ActResp)
    (hex : fileExists fs = true) (h401 : resp.status = 401) :
    get_recent_activity fs (some resp) = (.ok none, .missing) := by
  cases fs with
  | missing => simp [fileExists] at hex
  | invalidJson => simp [get_recent_activity, h401]
  | json v => simp [get_recent_activity, h401]

/-- Witness for C4 amended with an existing (unparseable) token file. -/
theorem c4_witness :
    get_recent_activity .invalidJson (some ⟨401, .null⟩) = (.ok none, .missing) :=
  c4_unauthorized_amended .invalidJson ⟨401, .null⟩ rfl rfl

/-- C8: on a 401, the unguarded deletion raises `FileNotFoundError` exactly
when the token file is missing; when it exists, the documented soft-failure
(delete and return `None`) holds. -/
theorem c8_missing_file_unauthorized (resp : ActResp) (h401 : resp.status = 401) :
    get_recent_activity .missing (some resp) = (.error .fileNotFound, .missing) ∧
    ∀ fs, fileExists fs = true →
      get_recent_activity fs (some resp) = (.ok none, .missing) := by
  constructor
  · simp [get_recent_activity, h401]
  · intro fs hex
    cases fs with
    | missing => simp [fileExists] at hex
    | invalidJson => simp [get_recent_activity, h401]
    | json v => simp [get_recent_activity, h401]

/-- Witness for C8 at a concrete 401 response, with and without a file. -/
theorem c8_witness :
    get_recent_activity .missing (some ⟨401, .arr .nil⟩)
      = (.error .fileNotFound, .missing) ∧
    get_recent_activity (.json demoTokens) (some ⟨401, .arr .nil⟩)
      = (.ok none, .missing) :=
  ⟨(c8_missing_file_unauthorized ⟨401, .arr .nil⟩ rfl).1,
   (c8_missing_file_unauthorized ⟨401, .arr .nil⟩ rfl).2 (.json demoTokens) rfl⟩

/-- C9: on a cache hit, `get_access_token` reads `access_token` from the
cached record and returns with the persisted file untouched and the
interactive flow (and its `save_tokens`) never entered. -/
theorem c9_cache_hit_frame (now : Int) (fs : FileState) (resp : TokenResp)
    (v : Json) (hhit : load_tokens now fs = .ok (some v)) :
    get_access_token now fs resp = (jsonIndex v "access_token", fs, false) := by
  simp [get_access_token, hhit]

/-- Witness for C9 at a concrete cached record (expiry 100, time 5). -/
theorem c9_witness :
    get_access_token 5 (.json demoTokens) ⟨404, .null⟩
      = (.ok (.str "tok"), .json demoTokens, false) :=
  (c9_cache_hit_frame 5 (.json demoTokens) ⟨404, .null⟩ demoTokens rfl).trans rfl

/-- C10: the orchestration defaults a missing `description` key to the empty
string and a missing `name` key to the empty title, while a key present with
a null value raises (`TypeError` from the substring test on the description,
`AttributeError` from `count_words` on the title). -/
theorem c10_orchestration_defaults :
    (∀ act t, jfLookup act "description" = none →
        jfLookup act "name" = some (.str t) →
        mainUpdate act = .ok (updateDescription [] t.data)) ∧
    (∀ act d, jfLookup act "description" = some (.str d) →
        jfLookup act "name" = none →
        mainUpdate act = .ok (updateDescription d.data [])) ∧
    (∀ act t, jfLookup act "description" = some .null →
        jfLookup act "name" = some (.str t) →
        mainUpdate act = .error .typeError) ∧
    (∀ act, jfLookup act "name" = some .null →
        mainUpdate act = .error .attributeError) := by
  refine ⟨?_, ?_, ?_, ?_⟩
  · intro act t hd hn
    simp [mainUpdate, hd, hn]
  · intro act d hd hn
    simp [mainUpdate, hd, hn]
  · intro act t hd hn
    simp [mainUpdate, hd, hn]
  · intro act hn
    simp [mainUpdate, hn]

/-- Witness for C10 at two concrete activity objects. -/
theorem c10_witness :
    mainUpdate actNoDesc = .ok (updateDescription [] "Run".data) ∧
    mainUpdate actNullName = .error .attributeError :=
  ⟨c10_orchestration_defaults.1 actNoDesc "Run" rfl rfl,
   c10_orchestration_defaults.2.2.2 actNullName rfl⟩

/-- C5 counterexample: the claim's transform (always split at the marker and
trim only trailing whitespace) disagrees with the code on a description with
no marker and trailing whitespace, and on one with a marker and leading
whitespace (Python `strip()` trims both ends, and only runs when the marker
is present). -/
theorem c5_transform_counterexample :
    specUpdateDescription "hello ".data "run".data
      ≠ updateDescription "hello ".data "run".data ∧
    specUpdateDescription " x yap score: 1".data "a b".data
      ≠ updateDescription " x yap score: 1".data "a b".data ∧
    updateDescription "hello ".data "run".data = "hello \n\nyap score: 1".data ∧
    updateDescription " x yap score: 1".data "a b".data
      = "x\n\nyap score: 2".data :=
  ⟨by decide, by decide, by decide, by decide⟩

/-- C5 amended: when the description contains `"yap score:"` the code keeps
the part before the first occurrence stripped of leading and trailing
whitespace; otherwise the description is left unchanged; then
`"\n\nyap score: <word count of title>"` is appended. The end-to-end example
of the claim holds. -/
theorem c5_transform_amended :
    (∀ d t, containsSub yapMarker d = true →
        updateDescription d t
          = pyStrip (takeBeforeFirst yapMarker d) ++ yapTail (count_words t)) ∧
    (∀ d t, containsSub yapMarker d = false →
        updateDescription d t = d ++ yapTail (count_words t)) ∧
    updateDescription "Nice day\n\nyap score: 2".data "Morning Run Felt Great".data
      = "Nice day\n\nyap score: 4".data := by
  refine ⟨?_, ?_, by decide⟩
  · intro d t h
    simp [updateDescription, stripPrior, h]
  · intro d t h
    simp [updateDescription, stripPrior, h]

/-- Witness for C5 amended at the claim's own end-to-end example input. -/
theorem c5_witness :
    updateDescription "Nice day\n\nyap score: 2".data "Morning Run Felt Great".data
      = pyStrip (takeBeforeFirst yapMarker "Nice day\n\nyap score: 2".data)
        ++ yapTail (count_words "Morning Run Felt Great".data) :=
  c5_transform_amended.1 "Nice day\n\nyap score: 2".data
    "Morning Run Felt Great".data (by decide)

/-- Key step for C7: the length of the token list produced by the whitespace
split equals the number of starts of maximal non-whitespace runs, account
being taken of a partially read token in `acc`. -/
theorem pySplitWsAux_length (t : List Char) :
    ∀ acc : List Char, (pySplitWsAux acc t).length
      = (if acc.isEmpty then 0 else 1) + countRunsAux (!acc.isEmpty) t := by
  induction t with
  | nil =>
    intro acc
    cases acc <;> simp [pySplitWsAux, countRunsAux]
  | cons c cs ih =>
    intro acc
    by_cases hc : isPySpace c = true
    · have h0 := ih []
      cases acc <;>
        simp [pySplitWsAux, countRunsAux, hc] at h0 ⊢ <;>
        omega
    · have hlen := ih (c :: acc)
      cases acc <;>
        simp [pySplitWsAux, countRunsAux, hc] at hlen ⊢ <;>
        omega

/-- A string of whitespace only contains no run of non-whitespace
characters, from any scan state. -/
theorem countRunsAux_eq_zero (t : List Char)
    (h : ∀ c ∈ t, isPySpace c = true) : ∀ b, countRunsAux b t = 0 := by
  induction t with
  | nil => intro b; rfl
  | cons c cs ih =>
    intro b
    have hc : isPySpace c = true := h c (List.mem_cons_self c cs)
    simp only [countRunsAux, hc, if_true]
    exact ih (fun x hx => h x (List.mem_cons_of_mem c hx)) false

/-- C7: `count_words` is the total function returning the number of maximal
runs of non-whitespace characters; the empty string and whitespace-only
strings count 0, and `"  a   b "` counts 2. -/
theorem c7_count_words_runs :
    (∀ t, count_words t = countRuns t) ∧
    count_words "".data = 0 ∧
    (∀ t, (∀ c ∈ t, isPySpace c = true) → count_words t = 0) ∧
    count_words "  a   b ".data = 2 := by
  have key : ∀ t, count_words t = countRuns t := by
    intro t
    have h := pySplitWsAux_length t []
    simpa [count_words, pySplitWs, countRuns] using h
  refine ⟨key, rfl, ?_, by decide⟩
  intro t h
  rw [key]
  exact countRunsAux_eq_zero t h false

/-- Witness for C7 on a concrete whitespace-only string and the claim's
two-word example. -/
theorem c7_witness :
    count_words " \t\n ".data = 0 ∧ count_words "  a   b ".data = 2 :=
  ⟨c7_count_words_runs.2.2.1 " \t\n ".data (by decide),
   c7_count_words_runs.2.2.2⟩

/-- Every value of `digitChar` is a decimal digit. -/
theorem digitChar_isDigit : ∀ d : Nat, (digitChar d).isDigit = true
  | 0 | 1 | 2 | 3 | 4 | 5 | 6 | 7 | 8 => rfl
  | _ + 9 => rfl

/-- Every character produced by `natDigitsAux` is a decimal digit. -/
theorem natDigitsAux_digits (fuel : Nat) :
    ∀ n c, c ∈ natDigitsAux n fuel → c.isDigit = true := by
  induction fuel with
  | zero => intro n c hc; simp [natDigitsAux] at hc
  | succ f ih =>
    intro n c hc
    simp only [natDigitsAux] at hc
    by_cases h : n < 10
    · rw [if_pos h, List.mem_singleton] at hc
      subst hc
      exact digitChar_isDigit n
    · rw [if_neg h] at hc
      rcases List.mem_append.mp hc with h1 | h1
      · exact ih (n / 10) c h1
      · rw [List.mem_singleton] at h1
        subst h1
        exact digitChar_isDigit (n % 10)

/-- Every character of the decimal rendering is a decimal digit. -/
theorem natDigits_digits (n : Nat) : ∀ c ∈ natDigits n, c.isDigit = true :=
  fun c hc => natDigitsAux_digits (n + 1) n c hc

/-- The Python substring test agrees with the list-infix relation. -/
theorem containsSub_infix_iff (sep : List Char) :
    ∀ s, containsSub sep s = true ↔ sep <:+: s := by
  intro s
  induction s with
  | nil => simp [containsSub, List.infix_nil, List.isEmpty_iff]
  | cons c cs ih => simp [containsSub, List.infix_cons_iff, ih]

/-- The part before the first occurrence is a prefix of the string. -/
theorem takeBeforeFirst_prefix_self (sep : List Char) :
    ∀ s, takeBeforeFirst sep s <+: s := by
  intro s
  induction s with
  | nil => simp [takeBeforeFirst]
  | cons c cs ih =>
    simp only [takeBeforeFirst]
    by_cases h : sep.isPrefixOf (c :: cs) = true
    · rw [if_pos h]
      exact List.nil_prefix
    · rw [if_neg h]
      exact List.cons_prefix_cons.mpr ⟨rfl, ih⟩

/-- A non-empty pattern does not occur in the part of a string before the
pattern's first occurrence. -/
theorem not_infix_takeBeforeFirst (sep : List Char) (hne : sep ≠ []) :
    ∀ s, ¬ sep <:+: takeBeforeFirst sep s := by
  intro s
  induction s with
  | nil => simp [takeBeforeFirst, List.infix_nil, hne]
  | cons c cs ih =>
    simp only [takeBeforeFirst]
    by_cases h : sep.isPrefixOf (c :: cs) = true
    · rw [if_pos h]
      simp [List.infix_nil, hne]
    · rw [if_neg h]
      intro hinf
      rcases List.infix_cons_iff.mp hinf with hpre | hinf2
      · have h2 : c :: takeBeforeFirst sep cs <+: c :: cs :=
          List.cons_prefix_cons.mpr ⟨rfl, takeBeforeFirst_prefix_self sep cs⟩
        exact h ( List.isPrefixOf_iff_prefix.mpr (hpre.trans h2))
      · exact ih hinf2

/-- Stripping whitespace from both ends yields an infix of the original
string. -/
theorem pyStrip_infix_self (l : List Char) : pyStrip l <:+: l := by
  unfold pyStrip
  have h1 : l.dropWhile isPySpace <:+ l := List.dropWhile_suffix _
  have h2 : (l.dropWhile isPySpace).reverse.dropWhile isPySpace
      <:+ (l.dropWhile isPySpace).reverse := List.dropWhile_suffix _
  have h3 := List.reverse_prefix.mpr h2
  rw [List.reverse_reverse] at h3
  exact h3.isInfix.trans h1.isInfix

/-- After `stripPrior` the marker no longer occurs in the description. -/
theorem stripPrior_marker_free (d : List Char) :
    ¬ yapMarker <:+: stripPrior d := by
  unfold stripPrior
  by_cases h : containsSub yapMarker d = true
  · rw [if_pos h]
    intro hinf
    exact not_infix_takeBeforeFirst yapMarker (by decide) d
      (hinf.trans (pyStrip_infix_self _))
  · rw [if_neg h]
    intro hinf
    exact h ((containsSub_infix_iff yapMarker d).mpr hinf)

/-- A pattern that does not occur in `s` and lacks the character `c` is not
a prefix of `s ++ c :: t`. -/
theorem isPrefixOf_append_cons_eq_false (sep s : List Char) (c : Char)
    (t : List Char) (hs : ¬ sep <:+: s) (hc : c ∉ sep) :
    sep.isPrefixOf (s ++ c :: t) = false := by
  rw [Bool.eq_false_iff]
  intro hb
  have hp : sep <+: s ++ c :: t := List.isPrefixOf_iff_prefix.mp hb
  by_cases hlen : sep.length ≤ s.length
  · apply hs
    apply List.IsPrefix.isInfix
    have heq := List.prefix_iff_eq_take.mp hp
    rw [List.take_append_eq_append_take, Nat.sub_eq_zero_of_le hlen] at heq
    simp only [List.take_zero, List.append_nil] at heq
    rw [heq]
    exact List.take_prefix _ _
  · push_neg at hlen
    apply hc
    have h1 : s ++ [c] <+: s ++ c :: t := ⟨t, by simp⟩
    have h2 : s ++ [c] <+: sep := by
      apply List.prefix_of_prefix_length_le h1 hp
      simp only [List.length_append, List.length_singleton]
      omega
    exact List.IsPrefix.mem (by simp) h2

/-- Occurrence counting skips a pattern-free block that ends at a boundary
character absent from the pattern. -/
theorem countOccur_append_cons (sep : List Char) (c : Char) (t : List Char)
    (hc : c ∉ sep) :
    ∀ s, ¬ sep <:+: s →
      countOccur sep (s ++ c :: t) = countOccur sep (c :: t) := by
  intro s
  induction s with
  | nil => intro _; rfl
  | cons a s2 ih =>
    intro hs
    have hs2 : ¬ sep <:+: s2 := fun h => hs (List.infix_cons h)
    have hfalse := isPrefixOf_append_cons_eq_false sep (a :: s2) c t hs hc
    show (if sep.isPrefixOf ((a :: s2) ++ c :: t) then 1 else 0)
        + countOccur sep (s2 ++ c :: t) = countOccur sep (c :: t)
    rw [hfalse]
    simp only [Bool.false_eq_true, if_false, Nat.zero_add]
    exact ih hs2

/-- A pattern whose first character is absent from a string never occurs in
that string. -/
theorem countOccur_not_mem (p : Char) (ps : List Char) :
    ∀ s, p ∉ s → countOccur (p :: ps) s = 0 := by
  intro s
  induction s with
  | nil => intro _; rfl
  | cons c cs ih =>
    intro h
    have hpc : (p == c) = false := by
      rw [beq_eq_false_iff_ne]
      intro he
      exact h (he ▸ List.mem_cons_self c cs)
    show (if (p :: ps).isPrefixOf (c :: cs) then 1 else 0)
        + countOccur (p :: ps) cs = 0
    rw [List.isPrefixOf_cons₂, hpc]
    simp only [Bool.false_and, Bool.false_eq_true, if_false, Nat.zero_add]
    exact ih (fun hx => h (List.mem_cons_of_mem c hx))

/-- A pattern that starts a string and whose head is absent from the
remainder occurs exactly once. -/
theorem countOccur_eq_one (p : Char) (ps r : List Char) (hp : p ∉ ps ++ r) :
    countOccur (p :: ps) ((p :: ps) ++ r) = 1 := by
  have hpre : ((p :: ps).isPrefixOf ((p :: ps) ++ r)) = true :=
    List.isPrefixOf_iff_prefix.mpr ( List.prefix_append _ _)
  show (if (p :: ps).isPrefixOf ((p :: ps) ++ r) then 1 else 0)
      + countOccur (p :: ps) (ps ++ r) = 1
  rw [hpre, countOccur_not_mem p ps (ps ++ r) hp]
  rfl

/-- The appended yap-score block contains exactly one occurrence of the
marker, whatever the rendered number. -/
theorem countOccur_yapTail (n : Nat) :
    countOccur yapMarker (yapTail n) = 1 := by
  have h1 : yapMarker.isPrefixOf
      ('\n' :: '\n' :: (yapSpace ++ natDigits n)) = false := rfl
  have h2 : yapMarker.isPrefixOf ('\n' :: (yapSpace ++ natDigits n)) = false := rfl
  have hmem : 'y' ∉ (['a', 'p', ' ', 's', 'c', 'o', 'r', 'e', ':']
      ++ (' ' :: natDigits n)) := by
    intro hm
    rcases List.mem_append.mp hm with hm1 | hm1
    · exact absurd hm1 (by decide)
    · rcases List.mem_cons.mp hm1 with hm2 | hm2
      · exact absurd hm2 (by decide)
      · have hd := natDigits_digits n 'y' hm2
        exact absurd hd (by decide)
  have hone : countOccur yapMarker (yapMarker ++ (' ' :: natDigits n)) = 1 :=
    countOccur_eq_one 'y' ['a', 'p', ' ', 's', 'c', 'o', 'r', 'e', ':']
      (' ' :: natDigits n) hmem
  have heq : yapSpace ++ natDigits n = yapMarker ++ (' ' :: natDigits n) := by
    simp [yapSpace]
  show (if yapMarker.isPrefixOf ('\n' :: '\n' :: (yapSpace ++ natDigits n))
        then 1 else 0)
      + ((if yapMarker.isPrefixOf ('\n' :: (yapSpace ++ natDigits n))
          then 1 else 0)
        + countOccur yapMarker (yapSpace ++ natDigits n)) = 1
  rw [h1, h2, heq, hone]
  rfl

/-- One application of the transform yields exactly one marker occurrence and
ends in the fresh yap-score block. -/
theorem updateDescription_occurs (d t : List Char) :
    countOccur yapMarker (updateDescription d t) = 1 ∧
    (yapSpace ++ natDigits (count_words t)) <:+ updateDescription d t := by
  constructor
  · have hstep := countOccur_append_cons yapMarker '\n'
      ('\n' :: (yapSpace ++ natDigits (count_words t))) (by decide)
      (stripPrior d) (stripPrior_marker_free d)
    calc countOccur yapMarker (updateDescription d t)
        = countOccur yapMarker
            ('\n' :: '\n' :: (yapSpace ++ natDigits (count_words t))) := hstep
      _ = 1 := countOccur_yapTail (count_words t)
  · show (yapSpace ++ natDigits (count_words t))
        <:+ stripPrior d ++ yapTail (count_words t)
    have hsplit : stripPrior d ++ yapTail (count_words t)
        = (stripPrior d ++ ['\n', '\n'])
          ++ (yapSpace ++ natDigits (count_words t)) := by
      simp [yapTail, List.append_assoc]
    rw [hsplit]
    exact List.suffix_append _ _

/-- C6: applying the strip-prior-yap-score-and-append transform twice with
the same title yields a description containing exactly one occurrence of
`"yap score:"`, and it ends with the block `"yap score: <N>"` where `N` is
the word count of the (latest) title. -/
theorem c6_yap_idempotence (d t : List Char) :
    countOccur yapMarker (updateDescription (updateDescription d t) t) = 1 ∧
    (yapSpace ++ natDigits (count_words t))
      <:+ updateDescription (updateDescription d t) t :=
  updateDescription_occurs (updateDescription d t) t
